import Mathlib

/-!
Shallow embedding of the listing-acquisition pipeline of `src/homes/rentcast_homes.py`
(LIhouses repository), together with proofs about the properties its specification
claims.  Python dict-shaped listing records are modelled as structures whose every
field distinguishes "key absent", "key present with explicit null (Python `None`)"
and "key present with a value"; `dict.get` semantics are embedded at each use site
exactly as the source reads the field.  Numeric listing fields are modelled as
integers (prices, areas) and rationals (bedroom/bathroom counts); Python float
formatting/rounding of report cells is presentation and is not modelled.  File and
network I/O is passed in as explicit data (the lists a fetch returned, the records
a cache directory holds).
-/

namespace LIH

/-- Presence state of one field of a semi-structured listing record: the key can be
absent from the record, present with an explicit null (Python `None`), or present
with a value. -/
inductive FieldVal (α : Type) where
  | missing : FieldVal α
  | null : FieldVal α
  | val : α → FieldVal α
deriving DecidableEq

/-- A ListingRecord, restricted to the fields the pipeline inspects
(`rentcast_homes.py` reads exactly these). -/
structure Home where
  id : FieldVal String
  formattedAddress : FieldVal String
  price : FieldVal Int
  bedrooms : FieldVal Rat
  bathrooms : FieldVal Rat
  propertyType : FieldVal String
  zipCode : FieldVal String
  squareFootage : FieldVal Int
deriving DecidableEq

/-- Truthiness of `home.get('id')` in Python: a missing key and an explicit null both
give `None` (falsy), and an empty string is falsy as well; otherwise the id string
itself is the (truthy) value.  Used by both deduplication passes
(`rentcast_homes.py` lines 158 and 216). -/
def truthyId : FieldVal String → Option String
  | .val s => if s = "" then none else some s
  | _ => none

/-- Value of `home.get('formattedAddress', '')` as it is rendered inside the f-string
`f"{address}|{price}"`: a missing key gives the default `''`, an explicit null gives
Python `None` which the f-string renders as `"None"`. -/
def addrStr : FieldVal String → String
  | .missing => ""
  | .null => "None"
  | .val s => s

/-- Value of `home.get('price', 0)` as rendered inside the fallback-key f-string:
missing gives the default `0` (rendered `"0"`), an explicit null gives `None`
(rendered `"None"`), and a value renders as its decimal representation. -/
def priceStr : FieldVal Int → String
  | .missing => "0"
  | .null => "None"
  | .val v => toString v

/-- Fallback identity key `f"{address}|{price}"` of `rentcast_homes.py`
lines 164-166 and 221-223. -/
def fallbackId (h : Home) : String := addrStr h.formattedAddress ++ "|" ++ priceStr h.price

/-- Identity key used by `deduplicate_homes` (lines 216-223): `str(home_id)` when the
id is truthy, else the address-and-price fallback key.  (`str` of a string is the
string itself.) -/
def homeIdentifier (h : Home) : String :=
  match truthyId h.id with
  | some s => s
  | none => fallbackId h

/-- One iteration of the loop body of `deduplicate_homes` (lines 213-227): state is
the pair (`seen_homes`, `unique_homes`); a record whose identifier was already seen
is dropped, otherwise it is appended and its identifier recorded. -/
def dedupStep (st : List String × List Home) (home : Home) : List String × List Home :=
  let identifier := homeIdentifier home
  if identifier ∈ st.1 then st else (identifier :: st.1, st.2 ++ [home])

/-- Embedding of `deduplicate_homes` (`rentcast_homes.py` lines 208-233). -/
def deduplicate_homes (homes : List Home) : List Home :=
  (homes.foldl dedupStep ([], [])).2

/-- One iteration of the inner loop of `fetch_and_combine_data_for_zip`
(lines 157-169): a truthy id is used as the key directly; a falsy id falls back to
the address-and-price key; in either case an unseen key appends the listing. -/
def addListing (st : List String × List Home) (listing : Home) : List String × List Home :=
  match truthyId listing.id with
  | some i => if i ∈ st.1 then st else (i :: st.1, st.2 ++ [listing])
  | none =>
    let fid := fallbackId listing
    if fid ∈ st.1 then st else (fid :: st.1, st.2 ++ [listing])

/-- Embedding of `fetch_and_combine_data_for_zip` (lines 140-175).  The network is
abstracted: `stationResults` is the list, one entry per station in order, of the
record lists `fetch_rentcast_data` returned (that call never raises, see
`fetch_rentcast_data` below, so the surrounding `try` never fires). -/
def fetch_and_combine_data_for_zip (stationResults : List (List Home)) : List Home :=
  (stationResults.foldl (fun st data => data.foldl addListing st) ([], [])).2

/-- Recursive reformulation of the `deduplicate_homes` loop, parameterised over the
already-seen key set. -/
def dhAux (seen : List String) : List Home → List Home
  | [] => []
  | h :: t =>
    if homeIdentifier h ∈ seen then dhAux seen t
    else h :: dhAux (homeIdentifier h :: seen) t

/-- Final seen-key set of the `deduplicate_homes` loop. -/
def dhSeen (seen : List String) : List Home → List String
  | [] => seen
  | h :: t =>
    if homeIdentifier h ∈ seen then dhSeen seen t
    else dhSeen (homeIdentifier h :: seen) t

lemma foldl_dedupStep (xs : List Home) : ∀ (seen : List String) (acc : List Home),
    xs.foldl dedupStep (seen, acc) = (dhSeen seen xs, acc ++ dhAux seen xs) := by
  induction xs with
  | nil => intro seen acc; simp [dhAux, dhSeen]
  | cons h t ih =>
    intro seen acc
    by_cases hmem : homeIdentifier h ∈ seen
    · simp [dedupStep, hmem, dhAux, dhSeen, ih]
    · simp [dedupStep, hmem, dhAux, dhSeen, ih]

lemma deduplicate_homes_eq_dhAux (xs : List Home) : deduplicate_homes xs = dhAux [] xs := by
  simp [deduplicate_homes, foldl_dedupStep]

lemma addListing_eq_dedupStep : addListing = dedupStep := by
  funext st l
  unfold addListing dedupStep homeIdentifier
  cases truthyId l.id <;> rfl

lemma fetch_and_combine_eq_dhAux (stationResults : List (List Home)) :
    fetch_and_combine_data_for_zip stationResults = dhAux [] stationResults.flatten := by
  have h1 : fetch_and_combine_data_for_zip stationResults
      = (stationResults.flatten.foldl addListing ([], [])).2 := by
    rw [fetch_and_combine_data_for_zip, List.foldl_flatten]
  rw [h1, addListing_eq_dedupStep, foldl_dedupStep]
  simp

lemma dhAux_filter (k : String) (xs : List Home) : ∀ seen : List String,
    (dhAux seen xs).filter (fun h => homeIdentifier h == k) =
      if k ∈ seen then [] else (xs.find? (fun h => homeIdentifier h == k)).toList := by
  induction xs with
  | nil => intro seen; simp [dhAux]
  | cons h t ih =>
    intro seen
    by_cases hmem : homeIdentifier h ∈ seen
    · rw [dhAux, if_pos hmem, ih]
      by_cases hk : k ∈ seen
      · simp [hk]
      · have hne : ¬ (homeIdentifier h == k) = true := by
          simp only [beq_iff_eq]
          intro he; exact hk (he ▸ hmem)
        simp [hk, List.find?, hne]
    · rw [dhAux, if_neg hmem]
      by_cases hk : homeIdentifier h = k
      · have hseenk : k ∈ homeIdentifier h :: seen := by simp [hk]
        have hknot : k ∉ seen := fun hc => hmem (hk ▸ hc)
        simp [List.filter, hk, ih, hseenk, hknot, List.find?]
      · have hkiff : k ∈ homeIdentifier h :: seen ↔ k ∈ seen := by
          constructor
          · intro hc
            rcases List.mem_cons.mp hc with hc | hc
            · exact absurd hc.symm hk
            · exact hc
          · exact List.mem_cons_of_mem _
        have hne : ¬ (homeIdentifier h == k) = true := by simp [hk]
        by_cases hks : k ∈ seen
        · simp [List.filter, hne, ih, hkiff.mpr hks, hks]
        · have : k ∉ homeIdentifier h :: seen := fun hc => hks (hkiff.mp hc)
          simp [List.filter, hne, ih, this, hks, List.find?]

lemma dhAux_mem_not_seen (xs : List Home) : ∀ seen : List String, ∀ h ∈ dhAux seen xs,
    homeIdentifier h ∉ seen := by
  induction xs with
  | nil => intro seen h hmem; simp [dhAux] at hmem
  | cons x t ih =>
    intro seen h hmem
    by_cases hx : homeIdentifier x ∈ seen
    · rw [dhAux, if_pos hx] at hmem
      exact ih seen h hmem
    · rw [dhAux, if_neg hx] at hmem
      rcases List.mem_cons.mp hmem with hmem | hmem
      · exact hmem ▸ hx
      · have := ih (homeIdentifier x :: seen) h hmem
        exact fun hc => this (List.mem_cons_of_mem _ hc)

lemma dhAux_pairwise (xs : List Home) : ∀ seen : List String,
    (dhAux seen xs).Pairwise (fun a b => homeIdentifier a ≠ homeIdentifier b) := by
  induction xs with
  | nil => intro seen; simp [dhAux]
  | cons x t ih =>
    intro seen
    by_cases hx : homeIdentifier x ∈ seen
    · rw [dhAux, if_pos hx]; exact ih seen
    · rw [dhAux, if_neg hx]
      refine List.Pairwise.cons ?_ (ih _)
      intro b hb
      have := dhAux_mem_not_seen t _ b hb
      intro he
      exact this (he ▸ List.mem_cons_self _ _)

lemma dhAux_eq_self (ys : List Home) : ∀ seen : List String,
    (∀ h ∈ ys, homeIdentifier h ∉ seen) →
    ys.Pairwise (fun a b => homeIdentifier a ≠ homeIdentifier b) →
    dhAux seen ys = ys := by
  induction ys with
  | nil => intro seen _ _; simp [dhAux]
  | cons y t ih =>
    intro seen hnot hpw
    have hy : homeIdentifier y ∉ seen := hnot y (List.mem_cons_self _ _)
    rw [dhAux, if_neg hy]
    rcases List.pairwise_cons.mp hpw with ⟨hhead, htail⟩
    have : ∀ h ∈ t, homeIdentifier h ∉ homeIdentifier y :: seen := by
      intro h hmem
      simp only [List.mem_cons]
      rintro (hc | hc)
      · exact hhead h hmem hc.symm
      · exact hnot h (List.mem_cons_of_mem _ hmem) hc
    rw [ih _ this htail]

/-- Claim C4: in both deduplication passes (the per-postal-code merge and the global
pass) the output contains no two records with equal identity keys, and for every
identity key the record kept is the first arrival with that key: the output records
carrying key `k` are exactly the first record of the input (in arrival order, the
per-station batches concatenated in station order) whose key is `k`. -/
theorem dedup_unique_keys_first_kept (xs : List Home) (stationResults : List (List Home))
    (k : String) :
    (deduplicate_homes xs).Pairwise (fun a b => homeIdentifier a ≠ homeIdentifier b) ∧
    (deduplicate_homes xs).filter (fun h => homeIdentifier h == k) =
      (xs.find? (fun h => homeIdentifier h == k)).toList ∧
    (fetch_and_combine_data_for_zip stationResults).Pairwise
      (fun a b => homeIdentifier a ≠ homeIdentifier b) ∧
    (fetch_and_combine_data_for_zip stationResults).filter (fun h => homeIdentifier h == k) =
      (stationResults.flatten.find? (fun h => homeIdentifier h == k)).toList := by
  refine ⟨?_, ?_, ?_, ?_⟩
  · rw [deduplicate_homes_eq_dhAux]; exact dhAux_pairwise xs []
  · rw [deduplicate_homes_eq_dhAux, dhAux_filter]; simp
  · rw [fetch_and_combine_eq_dhAux]; exact dhAux_pairwise _ []
  · rw [fetch_and_combine_eq_dhAux, dhAux_filter]; simp

/-- Claim C5: global deduplication is idempotent — running `deduplicate_homes` on its
own output removes nothing and changes nothing. -/
theorem deduplicate_homes_idempotent (xs : List Home) :
    deduplicate_homes (deduplicate_homes xs) = deduplicate_homes xs := by
  rw [deduplicate_homes_eq_dhAux (deduplicate_homes xs), deduplicate_homes_eq_dhAux xs]
  exact dhAux_eq_self _ [] (by intro h _; simp) (dhAux_pairwise xs [])

/-- Concrete record whose provider id string coincides with another record's
fallback key. -/
def collidingIdHome : Home :=
  ⟨.val "1 Main St|300000", .val "5 Oak Ave", .val 450000, .val 3, .val 2,
    .val "Single Family", .val "11776", .val 1500⟩

/-- Concrete record lacking an id, whose fallback key is `"1 Main St|300000"`. -/
def fallbackKeyHome : Home :=
  ⟨.missing, .val "1 Main St", .val 300000, .val 4, .val 2,
    .val "Single Family", .val "11777", .val 1600⟩

/-- Claim C10: provider ids and address-and-price fallback keys share one key
namespace: two distinct records — one whose id string equals the other's
`formattedAddress + "|" + price` fallback key — collide, and in both deduplication
passes the later-arriving record is dropped. -/
theorem dedup_key_namespace_collision :
    collidingIdHome ≠ fallbackKeyHome ∧
    homeIdentifier collidingIdHome = fallbackId fallbackKeyHome ∧
    deduplicate_homes [collidingIdHome, fallbackKeyHome] = [collidingIdHome] ∧
    fetch_and_combine_data_for_zip [[collidingIdHome], [fallbackKeyHome]] =
      [collidingIdHome] := by
  refine ⟨by decide, by decide, by decide, by decide⟩

/-- Python `str.lower()` on the strings the filter sees (ASCII field values):
character-wise lowering. -/
def strLower (s : String) : String := ⟨s.data.map Char.toLower⟩

/-- Evaluation of `home.get('price', 0)` followed by its use in the comparison
`price > max_price` (line 241): a missing key gives the default `0`; an explicit
null gives `None`, and `None > int` raises `TypeError` in Python 3. -/
def priceOfGet : FieldVal Int → Except Unit Int
  | .missing => .ok 0
  | .null => .error ()
  | .val v => .ok v

/-- Evaluation of `home.get('propertyType', '').lower()` (line 246): a missing key
gives `''`; an explicit null gives `None`, and `None.lower()` raises
`AttributeError`. -/
def propertyTypeLower : FieldVal String → Except Unit String
  | .missing => .ok ""
  | .null => .error ()
  | .val s => .ok (strLower s)

/-- One iteration of the loop body of `filter_homes_by_criteria`
(`rentcast_homes.py` lines 239-260): `ok true` means the record is appended,
`ok false` means a `continue` rejected it, `error` models a raised Python
exception escaping the loop. -/
def keepHome (maxPrice : Int) (minBath minBed : Rat) (home : Home) : Except Unit Bool :=
  match priceOfGet home.price with
  | .error e => .error e
  | .ok price =>
    if maxPrice < price then .ok false
    else
      match propertyTypeLower home.propertyType with
      | .error e => .error e
      | .ok propertyTy =>
        if propertyTy = "land" then .ok false
        else if (match home.bathrooms with
                 | .val b => decide (b < minBath)
                 | _ => false) then .ok false
        else
          match home.bedrooms with
          | .val b => .ok (decide (minBed ≤ b))
          | _ => .ok false

/-- Embedding of `filter_homes_by_criteria` (lines 235-262).  The loop visits the
records in order; an exception raised while examining a record propagates out of
the whole call. -/
def filter_homes_by_criteria (homes : List Home) (maxPrice : Int) (minBath minBed : Rat) :
    Except Unit (List Home) :=
  homes.foldlM
    (fun acc home =>
      match keepHome maxPrice minBath minBed home with
      | .error e => .error e
      | .ok true => .ok (acc ++ [home])
      | .ok false => .ok acc)
    []

/-- Price with a missing field treated as 0, as claim C1 words it. -/
def priceOrZero : FieldVal Int → Int
  | .val v => v
  | _ => 0

/-- Lower-cased property type, empty when the field carries no string. -/
def lowerType : FieldVal String → String
  | .val s => strLower s
  | _ => ""

/-- Eligibility predicate written from claim C1's words: price (0 when absent) is
not greater than the max price, the lower-cased property type is not exactly
"land", bathrooms is absent/null or not less than the minimum, and bedrooms is
present and not less than the minimum. -/
def eligibleSpec (maxPrice : Int) (minBath minBed : Rat) (h : Home) : Bool :=
  decide (priceOrZero h.price ≤ maxPrice) &&
  (lowerType h.propertyType != "land") &&
  (match h.bathrooms with
   | .val b => decide (minBath ≤ b)
   | _ => true) &&
  (match h.bedrooms with
   | .val b => decide (minBed ≤ b)
   | _ => false)

lemma priceOfGet_eq (p : FieldVal Int) (hp : p ≠ FieldVal.null) :
    priceOfGet p = .ok (priceOrZero p) := by
  cases p with
  | null => exact absurd rfl hp
  | missing => rfl
  | val v => rfl

lemma propertyTypeLower_eq (pt : FieldVal String) (ht : pt ≠ FieldVal.null) :
    propertyTypeLower pt = .ok (lowerType pt) := by
  cases pt with
  | null => exact absurd rfl ht
  | missing => rfl
  | val s => rfl

lemma keepHome_eq_spec (maxPrice : Int) (minBath minBed : Rat) (h : Home)
    (hp : h.price ≠ FieldVal.null) (ht : h.propertyType ≠ FieldVal.null) :
    keepHome maxPrice minBath minBed h = .ok (eligibleSpec maxPrice minBath minBed h) := by
  simp only [keepHome, priceOfGet_eq h.price hp, propertyTypeLower_eq h.propertyType ht]
  unfold eligibleSpec
  by_cases h1 : maxPrice < priceOrZero h.price
  · simp [h1, not_le.mpr h1]
  · have h1a : priceOrZero h.price ≤ maxPrice := not_lt.mp h1
    by_cases h2 : lowerType h.propertyType = "land"
    · simp [h1, h1a, h2]
    · cases hb : h.bathrooms with
      | val b =>
        by_cases h3 : b < minBath
        · simp [h1, h1a, h2, hb, h3, not_le.mpr h3]
        · cases hbd : h.bedrooms <;>
            simp [h1, h1a, h2, hb, h3, not_lt.mp h3, hbd]
      | missing =>
        cases hbd : h.bedrooms <;> simp [h1, h1a, h2, hb, hbd]
      | null =>
        cases hbd : h.bedrooms <;> simp [h1, h1a, h2, hb, hbd]

lemma filter_homes_go (maxPrice : Int) (minBath minBed : Rat) (xs : List Home)
    (hw : ∀ h ∈ xs, h.price ≠ FieldVal.null ∧ h.propertyType ≠ FieldVal.null) :
    ∀ acc : List Home,
      xs.foldlM
        (fun acc home =>
          match keepHome maxPrice minBath minBed home with
          | .error e => Except.error e
          | .ok true => Except.ok (acc ++ [home])
          | .ok false => Except.ok acc)
        acc = .ok (acc ++ xs.filter (eligibleSpec maxPrice minBath minBed)) := by
  induction xs with
  | nil => intro acc; simp; rfl
  | cons h t ih =>
    intro acc
    have hh := hw h (List.mem_cons_self _ _)
    have hkeep := keepHome_eq_spec maxPrice minBath minBed h hh.1 hh.2
    have ht : ∀ x ∈ t, x.price ≠ FieldVal.null ∧ x.propertyType ≠ FieldVal.null :=
      fun x hx => hw x (List.mem_cons_of_mem _ hx)
    have hbind : ∀ (a : List Home) (f : List Home → Except Unit (List Home)),
        (Except.ok a >>= f) = f a := fun a f => rfl
    by_cases he : eligibleSpec maxPrice minBath minBed h = true
    · simp [List.foldlM, hkeep, he, ih ht, List.filter, hbind]
    · have he' : eligibleSpec maxPrice minBath minBed h = false := by
        cases hb : eligibleSpec maxPrice minBath minBed h
        · rfl
        · exact absurd hb he
      simp [List.foldlM, hkeep, he', ih ht, List.filter, hbind]

/-- Claim C1: under the record well-formedness the data model gives (no explicit
null price, no explicit null property type), the eligibility filter returns
exactly the input records satisfying all four criteria — price (0 when absent)
at most the max price, lower-cased property type not "land", bathrooms
absent/null or at least the minimum, bedrooms present and at least the minimum —
in their original relative order. -/
theorem filter_homes_by_criteria_spec (xs : List Home) (maxPrice : Int)
    (minBath minBed : Rat)
    (hw : ∀ h ∈ xs, h.price ≠ FieldVal.null ∧ h.propertyType ≠ FieldVal.null) :
    filter_homes_by_criteria xs maxPrice minBath minBed =
      .ok (xs.filter (eligibleSpec maxPrice minBath minBed)) := by
  have := filter_homes_go maxPrice minBath minBed xs hw []
  simpa [filter_homes_by_criteria] using this

/-- Concrete records exercising the filter for the witnesses: an eligible one, a
land parcel, one below the bedroom minimum, one with absent bathrooms. -/
def wEligible : Home :=
  ⟨.val "a1", .val "2 Elm St", .val 500000, .val 4, .val 2,
    .val "Single Family", .val "11776", .val 1500⟩

def wLand : Home :=
  ⟨.val "a2", .val "3 Elm St", .val 100000, .val 5, .val 3,
    .val "Land", .val "11776", .val 0⟩

def wFewBeds : Home :=
  ⟨.val "a3", .val "4 Elm St", .val 400000, .val 2, .val 2,
    .val "Single Family", .val "11776", .val 1200⟩

def wNoBath : Home :=
  ⟨.val "a4", .val "5 Elm St", .val 450000, .val 4, .missing,
    .val "Condo", .val "11777", .val 1400⟩

def wFilterInput : List Home := [wEligible, wLand, wFewBeds, wNoBath]

/-- Witness for claim C1's theorem at a concrete input. -/
theorem filter_homes_by_criteria_spec_witness :
    (∀ h ∈ wFilterInput, h.price ≠ FieldVal.null ∧ h.propertyType ≠ FieldVal.null) ∧
    filter_homes_by_criteria wFilterInput 600000 (mkRat 3 2) 3 =
      .ok (wFilterInput.filter (eligibleSpec 600000 (mkRat 3 2) 3)) :=
  ⟨by decide, filter_homes_by_criteria_spec wFilterInput 600000 (mkRat 3 2) 3 (by decide)⟩

/-- Record whose price field is an explicit null (Python `None`). -/
def nullPriceHome : Home :=
  ⟨.val "n1", .val "6 Elm St", .null, .val 4, .val 2,
    .val "Single Family", .val "11776", .val 1500⟩

/-- Record whose propertyType field is an explicit null, passing the price check. -/
def nullTypeHome : Home :=
  ⟨.val "n2", .val "7 Elm St", .val 100000, .val 4, .val 2,
    .null, .val "11776", .val 1500⟩

/-- Record with explicit null bedrooms and bathrooms (handled, not raising). -/
def nullBedsBathsHome : Home :=
  ⟨.val "n3", .val "8 Elm St", .val 100000, .null, .null,
    .val "Single Family", .val "11776", .val 1500⟩

/-- Claim C9: the filter tolerates explicit nulls only in bedrooms/bathrooms — it
completes without raising on any input whose price and propertyType fields are
never explicit nulls (bedrooms/bathrooms nulls included), while a record with an
explicit null price, or one with an explicit null propertyType, makes the filter
raise (at the pipeline's thresholds). -/
theorem filter_homes_null_handling (xs : List Home) (maxPrice : Int) (minBath minBed : Rat)
    (hw : ∀ h ∈ xs, h.price ≠ FieldVal.null ∧ h.propertyType ≠ FieldVal.null) :
    (∃ ys, filter_homes_by_criteria xs maxPrice minBath minBed = .ok ys) ∧
    filter_homes_by_criteria [nullBedsBathsHome] 600000 (mkRat 3 2) 3 =
      .ok [] ∧
    filter_homes_by_criteria [nullPriceHome] 600000 (mkRat 3 2) 3 = .error () ∧
    filter_homes_by_criteria [nullTypeHome] 600000 (mkRat 3 2) 3 = .error () := by
  refine ⟨⟨_, filter_homes_by_criteria_spec xs maxPrice minBath minBed hw⟩,
    by rfl, by rfl, by rfl⟩

/-- Witness for claim C9's theorem at a concrete input. -/
theorem filter_homes_null_handling_witness :
    ((∀ h ∈ wFilterInput, h.price ≠ FieldVal.null ∧ h.propertyType ≠ FieldVal.null) ∧
    (∃ ys, filter_homes_by_criteria wFilterInput 600000 (mkRat 3 2) 3 = .ok ys)) :=
  ⟨by decide, (filter_homes_null_handling wFilterInput 600000 (mkRat 3 2) 3 (by decide)).1⟩

/-- Stable insertion of `x` in front of the first element `y` with `le x y`.
Python's `sorted` is a stable sort, and a stable sort by a total preorder has a
unique result, so stable insertion sort is an exact embedding of `sorted`. -/
def insertLE {α : Type} (le : α → α → Bool) (x : α) : List α → List α
  | [] => [x]
  | y :: t => if le x y then x :: y :: t else y :: insertLE le x t

/-- Stable sort embedding Python's `sorted(...)`. -/
def pySorted {α : Type} (le : α → α → Bool) : List α → List α
  | [] => []
  | x :: t => insertLE le x (pySorted le t)

lemma insertLE_perm {α : Type} (le : α → α → Bool) (x : α) (l : List α) :
    List.Perm (insertLE le x l) (x :: l) := by
  induction l with
  | nil => simp [insertLE]
  | cons y t ih =>
    rw [insertLE]
    by_cases hxy : le x y = true
    · simp [hxy]
    · have hxy' : le x y = false := by
        cases hb : le x y
        · rfl
        · exact absurd hb hxy
      rw [hxy', if_neg (by simp)]
      exact (ih.cons y).trans (List.Perm.swap x y t)

lemma pySorted_perm {α : Type} (le : α → α → Bool) (l : List α) :
    List.Perm (pySorted le l) l := by
  induction l with
  | nil => simp [pySorted]
  | cons x t ih => exact (insertLE_perm le x (pySorted le t)).trans (ih.cons x)

lemma insertLE_pairwise {α : Type} (le : α → α → Bool)
    (htr : ∀ a b c, le a b = true → le b c = true → le a c = true)
    (hto : ∀ a b, le a b = true ∨ le b a = true) (x : α) (l : List α)
    (hl : l.Pairwise (fun a b => le a b = true)) :
    (insertLE le x l).Pairwise (fun a b => le a b = true) := by
  induction l with
  | nil => simp [insertLE]
  | cons y t ih =>
    rcases List.pairwise_cons.mp hl with ⟨hy, ht⟩
    rw [insertLE]
    by_cases hxy : le x y = true
    · rw [if_pos hxy]
      refine List.pairwise_cons.mpr ⟨?_, hl⟩
      intro z hz
      rcases List.mem_cons.mp hz with hz | hz
      · exact hz ▸ hxy
      · exact htr x y z hxy (hy z hz)
    · have hxy' : le x y = false := by
        cases hb : le x y
        · rfl
        · exact absurd hb hxy
      rw [hxy', if_neg (by simp)]
      refine List.pairwise_cons.mpr ⟨?_, ih ht⟩
      intro z hz
      have hz' : z = x ∨ z ∈ t :=
        List.mem_cons.mp ((insertLE_perm le x t).mem_iff.mp hz)
      rcases hz' with hz' | hz'
      · rcases hto x y with h | h
        · exact absurd h hxy
        · exact hz' ▸ h
      · exact hy z hz'

lemma pySorted_pairwise {α : Type} (le : α → α → Bool)
    (htr : ∀ a b c, le a b = true → le b c = true → le a c = true)
    (hto : ∀ a b, le a b = true ∨ le b a = true) (l : List α) :
    (pySorted le l).Pairwise (fun a b => le a b = true) := by
  induction l with
  | nil => simp [pySorted]
  | cons x t ih => exact insertLE_pairwise le htr hto x (pySorted le t) ih

/-- Outcome of the HTTP request and parse sequence inside `fetch_rentcast_data`
(`rentcast_homes.py` lines 117-124): either a parsed listing list, or one of the
transport-level failures.  `requests.get` raises on timeout/connection loss,
`response.raise_for_status()` raises `HTTPError` on a non-2xx status, and
`response.json()` raises `requests.exceptions.JSONDecodeError` on a malformed
body; all are subclasses of `requests.exceptions.RequestException`. -/
inductive TransportOutcome where
  | ok (data : List Home)
  | timeout
  | badStatus (code : Nat)
  | malformedBody
deriving DecidableEq

/-- What the `try` body of `fetch_rentcast_data` produces: the parsed data, or the
raised `RequestException` for each failure mode. -/
def requestSteps : TransportOutcome → Except Unit (List Home)
  | .ok data => .ok data
  | .timeout => .error ()
  | .badStatus _ => .error ()
  | .malformedBody => .error ()

/-- Embedding of `fetch_rentcast_data` (lines 99-128): the `except
requests.exceptions.RequestException` clause (line 126) turns any raised
transport failure into an empty list, so the function always returns a plain
list to its caller. -/
def fetch_rentcast_data (outcome : TransportOutcome) : List Home :=
  match requestSteps outcome with
  | .ok data => data
  | .error _ => []

/-- Claim C6: every call either returns the records the source reported, or — on
timeout, non-success status, or a malformed body — returns the empty list; the
error branch never escapes as an exception (the embedding's total return type,
reached from every raising branch of the request sequence). -/
theorem fetch_rentcast_data_never_raises (outcome : TransportOutcome) :
    (∀ data, outcome = .ok data → fetch_rentcast_data outcome = data) ∧
    (requestSteps outcome = .error () → fetch_rentcast_data outcome = []) := by
  constructor
  · intro data hdata
    rw [hdata]
    rfl
  · intro herr
    rw [fetch_rentcast_data, herr]

/-- Witness for claim C6's theorem: a successful call and each failure mode, at
concrete inputs. -/
theorem fetch_rentcast_data_never_raises_witness :
    fetch_rentcast_data (.ok [wEligible]) = [wEligible] ∧
    fetch_rentcast_data .timeout = [] ∧
    fetch_rentcast_data (.badStatus 404) = [] ∧
    fetch_rentcast_data .malformedBody = [] :=
  ⟨(fetch_rentcast_data_never_raises (.ok [wEligible])).1 [wEligible] rfl,
   (fetch_rentcast_data_never_raises .timeout).2 rfl,
   (fetch_rentcast_data_never_raises (.badStatus 404)).2 rfl,
   (fetch_rentcast_data_never_raises .malformedBody).2 rfl⟩

/-- Group key `home.get('zipCode', 'Unknown')` of the inventory report (line 415).
The explicit-null case is unreachable: the report embedding rejects such inputs
(see `generate_zip_code_inventory_report`). -/
def zipKey (h : Home) : String :=
  match h.zipCode with
  | .val s => s
  | _ => "Unknown"

/-- Sample selection `if price and price > 0` (lines 429-431): a value joins the
statistics list iff the field is present with a strictly positive value (`None`
and `0` are falsy). -/
def statVal : FieldVal Int → List Int
  | .val v => if 0 < v then [v] else []
  | _ => []

/-- Per-postal-code accumulator of lines 419-432: running count plus the price and
square-footage samples in arrival order. -/
structure ZipAcc where
  count : Nat
  prices : List Int
  sqfts : List Int
deriving DecidableEq

def emptyAcc : ZipAcc := ⟨0, [], []⟩

/-- Lines 426-432 applied to one record. -/
def contrib (h : Home) (a : ZipAcc) : ZipAcc :=
  ⟨a.count + 1, a.prices ++ statVal h.price, a.sqfts ++ statVal h.squareFootage⟩

/-- Python-dict update of `zip_data` preserving insertion order: an absent key is
appended at the end. -/
def updateAssoc (zd : List (String × ZipAcc)) (z : String) (f : ZipAcc → ZipAcc) :
    List (String × ZipAcc) :=
  match zd with
  | [] => [(z, f emptyAcc)]
  | (k, a) :: t => if k = z then (k, f a) :: t else (k, a) :: updateAssoc t z f

/-- The `zip_data` dict after the collection loop of lines 414-432. -/
def buildZipData (xs : List Home) : List (String × ZipAcc) :=
  xs.foldl (fun zd h => updateAssoc zd (zipKey h) (contrib h)) []

/-- `statistics.mean` over integer samples, exact (float rounding not modelled). -/
def mean (l : List Int) : Rat := (l.sum : Rat) / (l.length : Rat)

/-- `statistics.median`: middle element of the ascending sort for odd length, the
average of the two middle elements for even length. -/
def median (l : List Int) : Rat :=
  let s := pySorted (fun a b => decide (a ≤ b)) l
  if l.length % 2 = 1 then ((s.getD (l.length / 2) 0 : Int) : Rat)
  else (((s.getD (l.length / 2 - 1) 0 : Int) : Rat) + ((s.getD (l.length / 2) 0 : Int) : Rat)) / 2

/-- One output row of the inventory report. -/
structure ZipRow where
  zip : String
  count : Nat
  avg_price : Rat
  median_price : Rat
  avg_sqft : Rat
  median_sqft : Rat
deriving DecidableEq

/-- Row statistics of lines 452-456 (`statistics.mean(...) if ... else 0`); the
`round(..., 0)` applied to the CSV cell at lines 462-465 is presentation and is
not modelled. -/
def rowOf (z : String) (a : ZipAcc) : ZipRow :=
  ⟨z, a.count,
    if a.prices = [] then 0 else mean a.prices,
    if a.prices = [] then 0 else median a.prices,
    if a.sqfts = [] then 0 else mean a.sqfts,
    if a.sqfts = [] then 0 else median a.sqfts⟩

/-- Sort key `(-count, zip_code)` of line 444, as the tuple's lexicographic
order. -/
def pairLE (a b : String × ZipAcc) : Bool :=
  decide (b.2.count < a.2.count) || (decide (a.2.count = b.2.count) && decide (a.1 ≤ b.1))

/-- Embedding of `generate_zip_code_inventory_report` (lines 409-477) up to CSV
serialisation: the rows it writes, in order.  A record whose zipCode field is an
explicit null would make Python group under the non-string key `None` (and line
444's tuple sort would compare `None` with `str` whenever counts tie); such inputs
are outside the embedding and yield `none`. -/
def generate_zip_code_inventory_report (filteredHomes : List Home) : Option (List ZipRow) :=
  if filteredHomes.any (fun h => decide (h.zipCode = FieldVal.null)) then none
  else some ((pySorted pairLE (buildZipData filteredHomes)).map (fun p => rowOf p.1 p.2))

/-- A rail station as `get_zip_code_coordinates` reads it from the stations CSV. -/
structure Station where
  name : String
  latitude : Rat
  longitude : Rat
deriving DecidableEq

/-- Environment `main` (lines 479-616) consults: whether today's dated directory
exists (line 495), whether the stations CSV exists (line 507), whether
`RENTCAST_API_KEY` is set (line 525); `zipCoords` is what
`get_zip_code_coordinates` returns (postal code → its stations, in CSV
first-occurrence order), `cachedZips` the postal codes whose per-zip cache file
already exists in today's directory (line 542), and `loadedHomes` what
`load_all_json_data` returns at line 591. -/
structure Env where
  dirExists : Bool
  stationsCsvExists : Bool
  apiKeyPresent : Bool
  zipCoords : List (String × List Station)
  cachedZips : List String
  loadedHomes : List Home

/-- Fetch plan of lines 538-556: postal codes whose cache file exists are excluded
(lines 540-545); the rest are ordered by `sorted(..., key=station count,
reverse=True)` — descending station count, stable. -/
def plan (zipCoords : List (String × List Station)) (cachedZips : List String) :
    List (String × List Station) :=
  pySorted (fun a b => decide (b.2.length ≤ a.2.length))
    (zipCoords.filter (fun p => decide (p.1 ∉ cachedZips)))

/-- Result of one `main` run: the early exit of line 498, the abort of line 509, a
Python exception escaping the downstream stages, or a completed run carrying the
postal codes dispatched for fetching (in dispatch order), the filtered set, and
the inventory rows. -/
inductive RunOutcome where
  | earlyExit
  | abortMissingCsv
  | crashed (fetched : List (String × List Station))
  | completed (fetched : List (String × List Station)) (filtered : List Home)
      (inventory : List ZipRow)

/-- Postal codes an outcome dispatched to the fetch pool (none when the run exited
before fetching). -/
def fetchedOf : RunOutcome → List (String × List Station)
  | .earlyExit => []
  | .abortMissingCsv => []
  | .crashed f => f
  | .completed f _ _ => f

/-- Whether the downstream stages (global dedup, filter, CSV/report writers) ran
to completion. -/
def ranDownstream : RunOutcome → Bool
  | .completed _ _ _ => true
  | _ => false

/-- Embedding of `main` (lines 479-616): the dated-directory early exit
(495-498), the stations-CSV precondition (507-509), the API-key branch (524-531)
under which fetching is skipped entirely, the fetch plan (538-577), and the
downstream pipeline (589-612).  The records the downstream stages read are the
oracle `env.loadedHomes`; the pipeline's fixed thresholds are those of lines 485
and 600. -/
def main (env : Env) : RunOutcome :=
  if env.dirExists then .earlyExit
  else if !env.stationsCsvExists then .abortMissingCsv
  else
    let fetched := if env.apiKeyPresent then plan env.zipCoords env.cachedZips else []
    let uniqueHomes := deduplicate_homes env.loadedHomes
    match filter_homes_by_criteria uniqueHomes 600000 (mkRat 3 2) 3 with
    | .error _ => .crashed fetched
    | .ok filtered =>
      match generate_zip_code_inventory_report filtered with
      | none => .crashed fetched
      | some rows => .completed fetched filtered rows

/-- Concrete environment: today's directory already exists and cached data is
present. -/
def envDirDone : Env :=
  ⟨true, true, true, [("11776", [⟨"Port Jefferson", 40, -73⟩])], ["11776"], [wEligible]⟩

/-- Counterexample to claim C2 as stated: with today's directory existing and a
nonempty cache, the run exits immediately — no fetching happens, but the
downstream stages (dedup, filter, CSV, inventory report) do not run either. -/
theorem scheduler_skip_counterexample :
    envDirDone.dirExists = true ∧ envDirDone.loadedHomes ≠ [] ∧
    fetchedOf (main envDirDone) = [] ∧ ranDownstream (main envDirDone) = false := by
  refine ⟨rfl, by decide, rfl, rfl⟩

/-- Claim C2 amended: if the run's dated cache directory already exists at
startup, `main` issues no fetches and exits immediately; the downstream stages do
not run for that invocation. -/
theorem scheduler_skip_whole_run (env : Env) (hd : env.dirExists = true) :
    main env = RunOutcome.earlyExit ∧ fetchedOf (main env) = [] := by
  rw [main, if_pos hd]
  exact ⟨rfl, rfl⟩

/-- Witness for the amended claim C2 theorem at a concrete environment. -/
theorem scheduler_skip_whole_run_witness :
    envDirDone.dirExists = true ∧ main envDirDone = RunOutcome.earlyExit ∧
      fetchedOf (main envDirDone) = [] :=
  ⟨rfl, (scheduler_skip_whole_run envDirDone rfl).1, (scheduler_skip_whole_run envDirDone rfl).2⟩

/-- Concrete environment: fresh day, stations CSV present, API credential
missing, one cached record on disk. -/
def envNoKey : Env :=
  ⟨false, true, false, [("11776", [⟨"Port Jefferson", 40, -73⟩])], [], [wEligible]⟩

/-- Counterexample to claim C3 as stated: with the API credential missing the run
does not abort — it issues no fetches but the downstream stages still run to
completion on the cached data. -/
theorem missing_credential_no_abort_counterexample :
    envNoKey.apiKeyPresent = false ∧ fetchedOf (main envNoKey) = [] ∧
    ranDownstream (main envNoKey) = true := by
  refine ⟨rfl, rfl, by rfl⟩

/-- Claim C3 amended: a missing stations CSV is fatal at startup — the run aborts
before any fetching, loading, filtering or output; a missing API credential is
not — the run issues no fetches but proceeds past startup into the downstream
stages. -/
theorem startup_precondition_handling (env : Env) (hd : env.dirExists = false) :
    (env.stationsCsvExists = false →
      main env = RunOutcome.abortMissingCsv ∧ fetchedOf (main env) = []) ∧
    (env.stationsCsvExists = true → env.apiKeyPresent = false →
      fetchedOf (main env) = [] ∧ main env ≠ RunOutcome.abortMissingCsv ∧
        main env ≠ RunOutcome.earlyExit) := by
  constructor
  · intro hcsv
    rw [main, if_neg (by simp [hd]), hcsv]
    exact ⟨rfl, rfl⟩
  · intro hcsv hkey
    rw [main, if_neg (by simp [hd]), hcsv]
    simp only [Bool.not_true, Bool.false_eq_true, if_false, hkey]
    cases hf : filter_homes_by_criteria (deduplicate_homes env.loadedHomes) 600000 (mkRat 3 2) 3 with
    | error e => simp [fetchedOf]
    | ok filtered =>
      cases hg : generate_zip_code_inventory_report filtered with
      | none => simp [hg, fetchedOf]
      | some rows => simp [hg, fetchedOf]

/-- Concrete environment with a missing stations CSV. -/
def envNoCsv : Env :=
  ⟨false, false, true, [("11776", [⟨"Port Jefferson", 40, -73⟩])], [], [wEligible]⟩

/-- Witness for the amended claim C3 theorem at concrete environments. -/
theorem startup_precondition_handling_witness :
    (main envNoCsv = RunOutcome.abortMissingCsv ∧ fetchedOf (main envNoCsv) = []) ∧
    (fetchedOf (main envNoKey) = [] ∧ main envNoKey ≠ RunOutcome.abortMissingCsv ∧
      main envNoKey ≠ RunOutcome.earlyExit) :=
  ⟨(startup_precondition_handling envNoCsv rfl).1 rfl,
   (startup_precondition_handling envNoKey rfl).2 rfl rfl⟩

lemma fetchedOf_main (env : Env) (hd : env.dirExists = false)
    (hcsv : env.stationsCsvExists = true) :
    fetchedOf (main env) =
      (if env.apiKeyPresent then plan env.zipCoords env.cachedZips else []) := by
  rw [main, if_neg (by simp [hd]), hcsv]
  simp only [Bool.not_true, Bool.false_eq_true, if_false]
  cases hf : filter_homes_by_criteria (deduplicate_homes env.loadedHomes) 600000 (mkRat 3 2) 3 with
  | error e => simp [fetchedOf]
  | ok filtered =>
    cases hg : generate_zip_code_inventory_report filtered with
    | none => simp [hg, fetchedOf]
    | some rows => simp [hg, fetchedOf]

/-- Claim C7: on a fresh day with the CSV and the credential present, the set of
postal codes dispatched to the pool is exactly those of the station index whose
per-zip cache file does not yet exist, and the dispatch order is by descending
station count. -/
theorem fetch_plan_spec (env : Env) (hd : env.dirExists = false)
    (hcsv : env.stationsCsvExists = true) (hkey : env.apiKeyPresent = true) :
    fetchedOf (main env) = plan env.zipCoords env.cachedZips ∧
    (∀ p, p ∈ fetchedOf (main env) ↔ p ∈ env.zipCoords ∧ p.1 ∉ env.cachedZips) ∧
    (fetchedOf (main env)).Pairwise (fun a b => b.2.length ≤ a.2.length) := by
  have hfe : fetchedOf (main env) = plan env.zipCoords env.cachedZips := by
    rw [fetchedOf_main env hd hcsv, if_pos hkey]
  refine ⟨hfe, ?_, ?_⟩
  · intro p
    rw [hfe, plan]
    rw [(pySorted_perm _ _).mem_iff, List.mem_filter]
    simp
  · rw [hfe, plan]
    have := pySorted_pairwise (fun a b : String × List Station => decide (b.2.length ≤ a.2.length))
      (by
        intro a b c hab hbc
        simp only [decide_eq_true_eq] at *
        exact le_trans hbc hab)
      (by
        intro a b
        simp only [decide_eq_true_eq]
        exact Nat.le_total b.2.length a.2.length)
      (env.zipCoords.filter (fun p => decide (p.1 ∉ env.cachedZips)))
    exact this.imp (by intro a b h; simpa using h)

/-- Concrete environment for the claim C7 witness: three postal codes, one already
cached, station counts 1, 2 and 3. -/
def envFetch : Env :=
  ⟨false, true, true,
    [("11001", [⟨"Floral Park", 40, -73⟩]),
     ("11002", [⟨"Hicksville", 40, -73⟩, ⟨"Syosset", 40, -73⟩, ⟨"Westbury", 40, -73⟩]),
     ("11003", [⟨"Elmont", 40, -73⟩, ⟨"Bellerose", 40, -73⟩])],
    ["11003"], []⟩

/-- Witness for claim C7's theorem at a concrete environment. -/
theorem fetch_plan_spec_witness :
    envFetch.dirExists = false ∧
    fetchedOf (main envFetch) = plan envFetch.zipCoords envFetch.cachedZips ∧
    (fetchedOf (main envFetch)).Pairwise (fun a b => b.2.length ≤ a.2.length) :=
  ⟨rfl, (fetch_plan_spec envFetch rfl rfl rfl).1, (fetch_plan_spec envFetch rfl rfl rfl).2.2⟩

/-- Association-list lookup for the `zip_data` dict. -/
def lookupZ (z : String) : List (String × ZipAcc) → Option ZipAcc
  | [] => none
  | (k, a) :: t => if k = z then some a else lookupZ z t

/-- The group a postal-code key collects, as claim C8 words it: the input records
whose group key is that postal code. -/
def groupOf (xs : List Home) (z : String) : List Home :=
  xs.filter (fun h => zipKey h == z)

/-- The present, strictly positive prices of a group. -/
def groupPrices (xs : List Home) (z : String) : List Int :=
  (groupOf xs z).flatMap (fun h => statVal h.price)

/-- The present, strictly positive square footages of a group. -/
def groupSqfts (xs : List Home) (z : String) : List Int :=
  (groupOf xs z).flatMap (fun h => statVal h.squareFootage)

/-- Accumulated contributions of a list of records to one group's accumulator. -/
def applyGroup (a : ZipAcc) : List Home → ZipAcc
  | [] => a
  | h :: g => applyGroup (contrib h a) g

lemma applyGroup_spec (g : List Home) : ∀ a : ZipAcc, applyGroup a g =
    ⟨a.count + g.length, a.prices ++ g.flatMap (fun h => statVal h.price),
     a.sqfts ++ g.flatMap (fun h => statVal h.squareFootage)⟩ := by
  induction g with
  | nil => intro a; simp [applyGroup]
  | cons h g ih =>
    intro a
    rw [applyGroup, ih]
    simp [contrib, Nat.add_assoc, Nat.add_comm 1 g.length]

lemma lookupZ_updateAssoc (z z' : String) (f : ZipAcc → ZipAcc)
    (zd : List (String × ZipAcc)) :
    lookupZ z (updateAssoc zd z' f) =
      if z' = z then some (f ((lookupZ z' zd).getD emptyAcc)) else lookupZ z zd := by
  induction zd with
  | nil => simp [updateAssoc, lookupZ]
  | cons p t ih =>
    obtain ⟨k, a⟩ := p
    rw [updateAssoc]
    by_cases hk : k = z'
    · subst hk
      by_cases hz : k = z
      · simp [lookupZ, hz]
      · simp [lookupZ, hz]
    · rw [if_neg hk]
      by_cases hz : k = z
      · subst hz
        have hz' : ¬ z' = k := fun he => hk he.symm
        simp [lookupZ, hz', hk]
      · simp [lookupZ, hz, hk, ih]

lemma lookupZ_buildFold (xs : List Home) (z : String) : ∀ zd : List (String × ZipAcc),
    lookupZ z (xs.foldl (fun zd h => updateAssoc zd (zipKey h) (contrib h)) zd) =
      if xs.filter (fun h => zipKey h == z) = [] then lookupZ z zd
      else some (applyGroup ((lookupZ z zd).getD emptyAcc)
        (xs.filter (fun h => zipKey h == z))) := by
  induction xs with
  | nil => intro zd; simp
  | cons h t ih =>
    intro zd
    simp only [List.foldl_cons]
    rw [ih]
    by_cases hz : zipKey h = z
    · have hfil : (h :: t).filter (fun x => zipKey x == z) =
          h :: t.filter (fun x => zipKey x == z) := by
        simp [List.filter, hz]
      rw [hfil, lookupZ_updateAssoc, if_pos hz]
      by_cases htf : t.filter (fun x => zipKey x == z) = []
      · simp [htf, hz, applyGroup]
      · simp [htf, hz, applyGroup]
    · have hbe : (zipKey h == z) = false := beq_eq_false_iff_ne.mpr hz
      have hfil : (h :: t).filter (fun x => zipKey x == z) =
          t.filter (fun x => zipKey x == z) := by
        simp [List.filter_cons, hbe]
      rw [hfil, lookupZ_updateAssoc, if_neg hz]

lemma lookupZ_buildZipData (xs : List Home) (z : String) :
    lookupZ z (buildZipData xs) =
      if xs.filter (fun h => zipKey h == z) = [] then none
      else some (applyGroup emptyAcc (xs.filter (fun h => zipKey h == z))) := by
  rw [buildZipData, lookupZ_buildFold]
  simp [lookupZ]

lemma updateAssoc_keys (zd : List (String × ZipAcc)) (z : String) (f : ZipAcc → ZipAcc) :
    (updateAssoc zd z f).map Prod.fst =
      if z ∈ zd.map Prod.fst then zd.map Prod.fst else zd.map Prod.fst ++ [z] := by
  induction zd with
  | nil => simp [updateAssoc]
  | cons p t ih =>
    obtain ⟨k, a⟩ := p
    rw [updateAssoc]
    by_cases hk : k = z
    · subst hk
      simp
    · rw [if_neg hk]
      have hzk : ¬ z = k := fun he => hk he.symm
      by_cases hz : z ∈ t.map Prod.fst
      · simp [ih, hz, hzk]
      · simp [ih, hz, hzk]

lemma buildFold_keys_nodup (xs : List Home) : ∀ zd : List (String × ZipAcc),
    (zd.map Prod.fst).Nodup →
    ((xs.foldl (fun zd h => updateAssoc zd (zipKey h) (contrib h)) zd).map Prod.fst).Nodup := by
  induction xs with
  | nil => intro zd hnd; simpa using hnd
  | cons h t ih =>
    intro zd hnd
    simp only [List.foldl_cons]
    apply ih
    rw [updateAssoc_keys]
    by_cases hz : zipKey h ∈ zd.map Prod.fst
    · simpa [hz] using hnd
    · rw [if_neg hz]
      rw [List.nodup_append]
      refine ⟨hnd, List.nodup_singleton _, ?_⟩
      intro a ha hmem
      rcases List.mem_singleton.mp hmem with rfl
      exact hz ha

lemma buildZipData_keys_nodup (xs : List Home) : ((buildZipData xs).map Prod.fst).Nodup :=
  buildFold_keys_nodup xs [] (by simp)

lemma lookupZ_of_mem (zd : List (String × ZipAcc)) (hnd : (zd.map Prod.fst).Nodup)
    (p : String × ZipAcc) (hp : p ∈ zd) : lookupZ p.1 zd = some p.2 := by
  induction zd with
  | nil => cases hp
  | cons q t ih =>
    obtain ⟨k, a⟩ := q
    rcases List.mem_cons.mp hp with hp | hp
    · subst hp
      simp [lookupZ]
    · have hk : k ≠ p.1 := by
        intro he
        have hmem : p.1 ∈ t.map Prod.fst := List.mem_map_of_mem Prod.fst hp
        exact (List.nodup_cons.mp hnd).1 (he ▸ hmem)
      simp [lookupZ, hk, ih (List.nodup_cons.mp hnd).2 hp]

lemma lookupZ_isSome_iff (z : String) (zd : List (String × ZipAcc)) :
    (lookupZ z zd).isSome = true ↔ z ∈ zd.map Prod.fst := by
  induction zd with
  | nil => simp [lookupZ]
  | cons q t ih =>
    obtain ⟨k, a⟩ := q
    by_cases hk : k = z
    · simp [lookupZ, hk]
    · have hzk : ¬ z = k := fun he => hk he.symm
      simp [lookupZ, hk, ih, hzk]

lemma pairLE_trans (a b c : String × ZipAcc) (hab : pairLE a b = true)
    (hbc : pairLE b c = true) : pairLE a c = true := by
  simp only [pairLE, Bool.or_eq_true, Bool.and_eq_true, decide_eq_true_eq] at *
  rcases hab with hab | ⟨hab1, hab2⟩
  · rcases hbc with hbc | ⟨hbc1, hbc2⟩
    · exact Or.inl (lt_trans hbc hab)
    · exact Or.inl (hbc1 ▸ hab)
  · rcases hbc with hbc | ⟨hbc1, hbc2⟩
    · exact Or.inl (hab1 ▸ hbc)
    · exact Or.inr ⟨hab1.trans hbc1, le_trans hab2 hbc2⟩

lemma pairLE_total (a b : String × ZipAcc) : pairLE a b = true ∨ pairLE b a = true := by
  simp only [pairLE, Bool.or_eq_true, Bool.and_eq_true, decide_eq_true_eq]
  rcases Nat.lt_trichotomy a.2.count b.2.count with h | h | h
  · exact Or.inr (Or.inl h)
  · rcases le_total a.1 b.1 with hs | hs
    · exact Or.inl (Or.inr ⟨h, hs⟩)
    · exact Or.inr (Or.inr ⟨h.symm, hs⟩)
  · exact Or.inl (Or.inl h)

/-- Claim C8: on a filtered set whose zipCode fields carry no explicit null, the
inventory report groups records by postal code; each row reports the full count of
its group and the mean/median of price and of square footage computed only over
present, strictly positive values; the rows cover exactly the postal codes
occurring in the input, one row each, and are ordered by descending count with
ties broken by ascending postal code. -/
theorem inventory_report_spec (xs : List Home)
    (hz : ∀ h ∈ xs, h.zipCode ≠ FieldVal.null) :
    ∃ rows : List ZipRow, generate_zip_code_inventory_report xs = some rows ∧
      (∀ r ∈ rows,
        r.count = (groupOf xs r.zip).length ∧
        r.avg_price = (if groupPrices xs r.zip = [] then 0 else mean (groupPrices xs r.zip)) ∧
        r.median_price =
          (if groupPrices xs r.zip = [] then 0 else median (groupPrices xs r.zip)) ∧
        r.avg_sqft = (if groupSqfts xs r.zip = [] then 0 else mean (groupSqfts xs r.zip)) ∧
        r.median_sqft =
          (if groupSqfts xs r.zip = [] then 0 else median (groupSqfts xs r.zip))) ∧
      (∀ z : String, (∃ h ∈ xs, zipKey h = z) ↔ ∃ r ∈ rows, r.zip = z) ∧
      (rows.map ZipRow.zip).Nodup ∧
      rows.Pairwise
        (fun r1 r2 => r2.count < r1.count ∨ (r1.count = r2.count ∧ r1.zip ≤ r2.zip)) := by
  have hno : (xs.any fun h => decide (h.zipCode = FieldVal.null)) = false := by
    rw [List.any_eq_false]
    intro h hh
    simpa using hz h hh
  have hperm := pySorted_perm pairLE (buildZipData xs)
  have hkeysmap : ((pySorted pairLE (buildZipData xs)).map
        (fun p => (rowOf p.1 p.2).zip)) =
      (pySorted pairLE (buildZipData xs)).map Prod.fst := by
    apply List.map_congr_left
    intro p _
    rfl
  refine ⟨(pySorted pairLE (buildZipData xs)).map (fun p => rowOf p.1 p.2),
    by rw [generate_zip_code_inventory_report, if_neg (by simp [hno])], ?_, ?_, ?_, ?_⟩
  · intro r hr
    rcases List.mem_map.mp hr with ⟨p, hpmem, rfl⟩
    have hpin : p ∈ buildZipData xs := hperm.mem_iff.mp hpmem
    have hlook : lookupZ p.1 (buildZipData xs) = some p.2 :=
      lookupZ_of_mem _ (buildZipData_keys_nodup xs) p hpin
    rw [lookupZ_buildZipData] at hlook
    by_cases hfe : xs.filter (fun h => zipKey h == p.1) = []
    · rw [if_pos hfe] at hlook
      cases hlook
    · rw [if_neg hfe] at hlook
      have hp2 : p.2 = applyGroup emptyAcc (xs.filter (fun h => zipKey h == p.1)) :=
        (Option.some.injEq _ _ ▸ hlook).symm
      rw [applyGroup_spec] at hp2
      have hzip : (rowOf p.1 p.2).zip = p.1 := rfl
      rw [hzip]
      have hcount : p.2.count = (groupOf xs p.1).length := by
        rw [hp2]; simp [emptyAcc, groupOf]
      have hprices : p.2.prices = groupPrices xs p.1 := by
        rw [hp2]; simp [emptyAcc, groupPrices, groupOf]
      have hsqfts : p.2.sqfts = groupSqfts xs p.1 := by
        rw [hp2]; simp [emptyAcc, groupSqfts, groupOf]
      exact ⟨hcount, by simp [rowOf, hprices], by simp [rowOf, hprices],
        by simp [rowOf, hsqfts], by simp [rowOf, hsqfts]⟩
  · intro z
    have h1 : (∃ h ∈ xs, zipKey h = z) ↔ xs.filter (fun h => zipKey h == z) ≠ [] := by
      rw [Ne, List.filter_eq_nil_iff]
      constructor
      · rintro ⟨h, hh, hk⟩ hall
        exact hall h hh (by simp [hk])
      · intro hnall
        rcases not_forall.mp hnall with ⟨h, hh⟩
        rcases not_forall.mp hh with ⟨hmem, hk⟩
        exact ⟨h, hmem, by simpa using not_not.mp hk⟩
    have h2 : xs.filter (fun h => zipKey h == z) ≠ [] ↔
        (lookupZ z (buildZipData xs)).isSome = true := by
      rw [lookupZ_buildZipData]
      by_cases hfe : xs.filter (fun h => zipKey h == z) = []
      · simp [hfe]
      · simp [hfe]
    have h3 : (lookupZ z (buildZipData xs)).isSome = true ↔
        z ∈ (buildZipData xs).map Prod.fst := lookupZ_isSome_iff z _
    have h4 : z ∈ (buildZipData xs).map Prod.fst ↔
        z ∈ (pySorted pairLE (buildZipData xs)).map Prod.fst :=
      (List.Perm.map Prod.fst hperm).mem_iff.symm
    have h5 : z ∈ (pySorted pairLE (buildZipData xs)).map Prod.fst ↔
        ∃ r ∈ (pySorted pairLE (buildZipData xs)).map (fun p => rowOf p.1 p.2),
          r.zip = z := by
      rw [← hkeysmap]
      constructor
      · intro hmem
        rcases List.mem_map.mp hmem with ⟨p, hp, he⟩
        exact ⟨rowOf p.1 p.2, List.mem_map_of_mem _ hp, he⟩
      · rintro ⟨r, hr, rfl⟩
        rcases List.mem_map.mp hr with ⟨p, hp, rfl⟩
        exact List.mem_map_of_mem _ hp
    exact h1.trans (h2.trans (h3.trans (h4.trans h5)))
  · rw [List.map_map]
    have : (List.map (ZipRow.zip ∘ fun p => rowOf p.1 p.2)
        (pySorted pairLE (buildZipData xs))) =
        (pySorted pairLE (buildZipData xs)).map Prod.fst := by
      apply List.map_congr_left
      intro p _
      rfl
    rw [this]
    exact ((List.Perm.map Prod.fst hperm).nodup_iff).mpr (buildZipData_keys_nodup xs)
  · rw [List.pairwise_map]
    have hsorted := pySorted_pairwise pairLE pairLE_trans pairLE_total (buildZipData xs)
    refine hsorted.imp ?_
    intro a b hab
    simp only [pairLE, Bool.or_eq_true, Bool.and_eq_true, decide_eq_true_eq] at hab
    exact hab

/-- Witness for claim C8's theorem at a concrete input. -/
theorem inventory_report_spec_witness :
    (∀ h ∈ wFilterInput, h.zipCode ≠ FieldVal.null) ∧
    ∃ rows, generate_zip_code_inventory_report wFilterInput = some rows :=
  ⟨by decide,
   ⟨(inventory_report_spec wFilterInput (by decide)).choose,
    (inventory_report_spec wFilterInput (by decide)).choose_spec.1⟩⟩

end LIH
